import Mathlib

/-!
Shallow embedding of the mop terminal dashboard core (Go) in Lean 4.

Strings are modelled as `List Char` (one entry per byte of the Go string;
every character that matters here is ASCII).  Termbox attributes
(`termbox.Attribute`, a 16-bit word) are modelled as `Nat` together with the
invariant `< 65536`; the Go bitwise complement `^a` on that type is
`65535 ^^^ a`.

Sources embedded here:
  * `pkg/view/markup.go`   — `Markup`, `NewMarkup`, `Tokenize`, `IsTag`,
    `process`, `probeForTag`, `extractTagName`, `supportedTags`,
    plus `Filter.Apply` from the view package.
  * `pkg/view/column_editor.go` — `ColumnEditor`.
  * `cmd/mop/main.go`      — the `mainLoop` event dispatcher.
  * the model package      — `Quotes.Fetch`, `Quotes.parse2`, `isReady`.
-/

/-- Go strings, byte by byte. -/
abbrev Str := List Char

namespace Mop

/-! ## Termbox constants (nsf/termbox-go).

Colors are the small enumeration `ColorDefault = 0, …, ColorLightGray = 16`;
the attribute bits start at `AttrBold = 1 <<< 9`. -/

def ColorDefault : Nat := 0
def ColorBlack : Nat := 1
def ColorRed : Nat := 2
def ColorGreen : Nat := 3
def ColorYellow : Nat := 4
def ColorBlue : Nat := 5
def ColorMagenta : Nat := 6
def ColorCyan : Nat := 7
def ColorWhite : Nat := 8
def ColorDarkGray : Nat := 9
def ColorLightRed : Nat := 10
def ColorLightGreen : Nat := 11
def ColorLightYellow : Nat := 12
def ColorLightBlue : Nat := 13
def ColorLightMagenta : Nat := 14
def ColorLightCyan : Nat := 15
def ColorLightGray : Nat := 16

def AttrBold : Nat := 512
def AttrUnderline : Nat := 1024
def AttrReverse : Nat := 2048

/-- Bitwise complement on the 16-bit attribute word: Go `^a` at type
`termbox.Attribute` (uint16). -/
def compl16 (a : Nat) : Nat := 65535 ^^^ a

/-! ## Markup (pkg/view/markup.go) -/

/-- `terminalColor` — maps the string representation of a color to its
termbox value. -/
def terminalColor : List (Str × Nat) :=
  [ ("black".toList,        ColorBlack),
    ("blue".toList,         ColorBlue),
    ("cyan".toList,         ColorCyan),
    ("darkgray".toList,     ColorDarkGray),
    ("default".toList,      ColorDefault),
    ("green".toList,        ColorGreen),
    ("lightblue".toList,    ColorLightBlue),
    ("lightcyan".toList,    ColorLightCyan),
    ("lightgray".toList,    ColorLightGray),
    ("lightgreen".toList,   ColorLightGreen),
    ("lightmagenta".toList, ColorLightMagenta),
    ("lightred".toList,     ColorLightRed),
    ("lightyellow".toList,  ColorLightYellow),
    ("magenta".toList,      ColorMagenta),
    ("red".toList,          ColorRed),
    ("white".toList,        ColorWhite),
    ("yellow".toList,       ColorYellow) ]

/-- Go map indexing `terminalColor[name]`: the zero value `ColorDefault`
is returned when the key is absent. -/
def terminalColorGet (name : Str) : Nat :=
  ((terminalColor.lookup name).getD ColorDefault)

/-- The `Markup` struct.  The `tags` map is an association list (insertion
order of `NewMarkup`); `regex` is represented by the list of literal tag
forms derived from `tags` (see `supportedTagForms`). -/
structure Markup where
  Foreground : Nat
  Background : Nat
  RightAligned : Bool
  tags : List (Str × Nat)
deriving Repr, DecidableEq

/-- The tag vocabulary installed by `NewMarkup` (markup.go lines 66-76):
only `/`, `base`, `highlight`, `market`, `right`, `b`, `u`, `r`.
`highlight` and `market` come from the configured color names via
`terminalColor` lookup. -/
def markupTags (highlightColor marketColor : Str) : List (Str × Nat) :=
  [ ("/".toList,         ColorDefault),
    ("base".toList,      ColorWhite),
    ("highlight".toList, terminalColorGet highlightColor),
    ("market".toList,    terminalColorGet marketColor),
    ("right".toList,     ColorDefault),
    ("b".toList,         AttrBold),
    ("u".toList,         AttrUnderline),
    ("r".toList,         AttrReverse) ]

/-- `NewMarkup` (markup.go lines 60-79). -/
def NewMarkup (highlightColor marketColor : Str) : Markup :=
  { Foreground := ColorDefault
    Background := ColorDefault
    RightAligned := false
    tags := markupTags highlightColor marketColor }

/-- The literal strings matched by the regex `supportedTags` builds:
for every tag name `t` the alternative `</?t>` matches exactly the two
strings `</t>` and `<t>`. -/
def supportedTagForms (tags : List (Str × Nat)) : List Str :=
  tags.foldr (fun t acc =>
    ('<' :: '/' :: (t.1 ++ ['>'])) :: ('<' :: (t.1 ++ ['>'])) :: acc) []

/-- One step of the regex engine: the match (if any) starting exactly at
position `pos` of `s`, returned as its length.  The alternatives are all
literal strings, so this is a first-fitting-pattern lookup; at any given
position at most one of the tag forms can match, hence the pattern order
(Go map iteration order is unspecified) cannot change the result. -/
def tagMatchAt (patterns : List Str) (s : Str) (pos : Nat) : Option Nat :=
  match patterns with
  | [] => none
  | p :: ps =>
    if (s.drop pos).take p.length = p ∧ p ≠ [] then some p.length
    else tagMatchAt ps s pos

/-- `regexp.FindAllStringIndex`: scan left to right, emit each leftmost
non-overlapping match as a `(start, end)` pair, resume after its end.
`fuel` only bounds the recursion; `s.length + 1` is always enough. -/
def scanMatches (patterns : List Str) (s : Str) : Nat → Nat → List (Nat × Nat)
  | _, 0 => []
  | pos, fuel + 1 =>
    match tagMatchAt patterns s pos with
    | some len => (pos, pos + len) :: scanMatches patterns s (pos + len) fuel
    | none =>
      if pos < s.length then scanMatches patterns s (pos + 1) fuel else []

/-- `markup.regex.FindAllStringIndex(str, -1)` for the tag regex. -/
def findAllTagIndex (patterns : List Str) (s : Str) : List (Nat × Nat) :=
  scanMatches patterns s 0 (s.length + 1)

/-- Go slice `s[a:b]`. -/
def sliceStr (s : Str) (a b : Nat) : Str := (s.drop a).take (b - a)

/-- Concatenation of a token list, for the round-trip statement. -/
def concatAll (xs : List Str) : Str := xs.flatten

/-- Well-formedness of a regex match list relative to a string of length
`n`, starting no earlier than `lo`: the intervals are non-empty, in order,
non-overlapping, and inside the string — exactly what
`FindAllStringIndex` guarantees. -/
def ValidMatches (n : Nat) : Nat → List (Nat × Nat) → Prop
  | _, [] => True
  | lo, m :: rest => lo ≤ m.1 ∧ m.1 < m.2 ∧ m.2 ≤ n ∧ ValidMatches n m.2 rest

/-- The loop body of `Markup.Tokenize` (markup.go lines 95-111), with the
`head`/`tail` cursors made explicit.  Each processed match appends the text
between tags (unless both cursors are still at 0) and then the tag itself;
after the loop the remaining tail of the string is appended unless either
cursor sits at the end. -/
def tokenizeLoop (s : Str) : Nat → Nat → List (Nat × Nat) → List Str
  | head, tail, [] =>
    if head ≠ s.length ∧ tail ≠ s.length then [sliceStr s head s.length] else []
  | head, _tail, (a, b) :: rest =>
    (if b ≠ 0 then
      (if head ≠ 0 ∨ a ≠ 0 then [sliceStr s head a] else []) ++ [sliceStr s a b]
     else []) ++ tokenizeLoop s b a rest

/-- `Tokenize` over an explicit pattern list. -/
def tokenizeCore (patterns : List Str) (s : Str) : List Str :=
  tokenizeLoop s 0 0 (findAllTagIndex patterns s)

/-- `Markup.Tokenize` (markup.go lines 91-114). -/
def Markup.Tokenize (markup : Markup) (s : Str) : List Str :=
  tokenizeCore (supportedTagForms markup.tags) s

/-- `extractTagName` (markup.go lines 177-187). -/
def extractTagName (s : Str) : Str :=
  if s.length < 3 then []
  else if sliceStr s 1 2 ≠ ['/'] then sliceStr s 1 (s.length - 1)
  else if s.length > 3 then sliceStr s 2 (s.length - 1)
  else ['/']

/-- `probeForTag` (markup.go lines 168-174): returns the tag name and
whether the tag is an opening one. -/
def probeForTag (s : Str) : Str × Bool :=
  if s.length > 2 ∧ sliceStr s 0 1 = ['<'] ∧ sliceStr s (s.length - 1) s.length = ['>'] then
    (extractTagName s, sliceStr s 1 2 ≠ ['/'])
  else ([], false)

/-- `Markup.process` (markup.go lines 130-153).  Returns the updated markup;
the Go function always returns `true` alongside. -/
def Markup.process (markup : Markup) (tag : Str) (opening : Bool) : Markup :=
  match markup.tags.lookup tag with
  | some attrValue =>
    if tag = "right".toList then
      { markup with RightAligned := opening }
    else if opening then
      if attrValue ≥ AttrBold then
        { markup with Foreground := markup.Foreground ||| attrValue }
      else
        { markup with Foreground := attrValue }
    else
      if attrValue ≥ AttrBold then
        { markup with Foreground := markup.Foreground &&& compl16 attrValue }
      else
        { markup with Foreground := ColorDefault }
  | none => markup

/-- `Markup.IsTag` (markup.go lines 119-127): the updated markup and the
boolean result. -/
def Markup.IsTag (markup : Markup) (s : Str) : Markup × Bool :=
  let probed := probeForTag s
  if probed.1 = [] then (markup, false)
  else (markup.process probed.1 probed.2, true)

/-! ## Quote records (model package) -/

/-- The `Stock` struct. -/
structure Stock where
  Ticker : Str
  LastTrade : Str
  Change : Str
  ChangePct : Str
  Open : Str
  Low : Str
  High : Str
  Low52 : Str
  High52 : Str
  Volume : Str
  AvgVolume : Str
  PeRatio : Str
  PeRatioX : Str
  Dividend : Str
  Yield : Str
  MarketCap : Str
  MarketCapX : Str
  Currency : Str
  Advancing : Bool
  PreOpen : Str
  AfterHours : Str
deriving Repr, DecidableEq

/-- The zero `Stock` (all fields at their Go zero value), as produced by
`make([]Stock, n)`. -/
def Stock.zero : Stock :=
  { Ticker := [], LastTrade := [], Change := [], ChangePct := [], Open := []
    Low := [], High := [], Low52 := [], High52 := [], Volume := []
    AvgVolume := [], PeRatio := [], PeRatioX := [], Dividend := [], Yield := []
    MarketCap := [], MarketCapX := [], Currency := [], Advancing := false
    PreOpen := [], AfterHours := [] }

/-! ## Filter (view package, `Filter.Apply`)

`govaluate` values (`interface{}` results of `Evaluate`) are modelled by
`GoValue`; the type assertion `result.(bool)` is `GoValue.asBool`. -/

inductive GoValue where
  | boolean : Bool → GoValue
  | number : Rat → GoValue
  | strval : Str → GoValue
deriving Repr, DecidableEq

/-- The Go type assertion `result.(bool)`. -/
def GoValue.asBool : GoValue → Option Bool
  | .boolean b => some b
  | _ => none

/-- The binding map built for one stock by `Filter.Apply`.  The helpers
`m` and `c` (numeric normalization) and `strings.TrimSpace` live outside
src/ (`m`, `c` in the layout code, `TrimSpace` in the Go stdlib), so they
are taken as parameters. -/
def stockValues (trimSpace : Str → Str) (m c : Str → GoValue) (stock : Stock) :
    List (Str × GoValue) :=
  [ ("ticker".toList,        GoValue.strval (trimSpace stock.Ticker)),
    ("last".toList,          m stock.LastTrade),
    ("change".toList,        c stock.Change),
    ("changePercent".toList, c stock.ChangePct),
    ("open".toList,          m stock.Open),
    ("low".toList,           m stock.Low),
    ("high".toList,          m stock.High),
    ("low52".toList,         m stock.Low52),
    ("high52".toList,        m stock.High52),
    ("volume".toList,        m stock.Volume),
    ("avgVolume".toList,     m stock.AvgVolume),
    ("pe".toList,            m stock.PeRatio),
    ("peX".toList,           m stock.PeRatioX),
    ("dividend".toList,      m stock.Dividend),
    ("yield".toList,         m stock.Yield),
    ("mktCap".toList,        m stock.MarketCap),
    ("mktCapX".toList,       m stock.MarketCapX),
    ("advancing".toList,     GoValue.boolean stock.Advancing) ]

/-- The message of the non-boolean-result panic in `Filter.Apply`. -/
def nonBooleanPanicMsg (filterText : Str) : Str :=
  "Expression `".toList ++ filterText ++ "` should return a boolean value".toList

/-- `Filter.Apply`.  The external expression engine
(`profile.FilterExpression.Evaluate`) is the `evaluate` parameter;
`filterText` is `profile.Filter` (used in the panic message).  A Go
`panic` aborts the whole loop, so the function returns `Except`: on
`Except.error` no stock list is produced at all. -/
def FilterApply (evaluate : List (Str × GoValue) → Except Str GoValue)
    (trimSpace : Str → Str) (m c : Str → GoValue) (filterText : Str) :
    List Stock → Except Str (List Stock)
  | [] => .ok []
  | stock :: rest =>
    match evaluate (stockValues trimSpace m c stock) with
    | .error err => .error err
    | .ok result =>
      match result.asBool with
      | none => .error (nonBooleanPanicMsg filterText)
      | some truthy =>
        match FilterApply evaluate trimSpace m c filterText rest with
        | .error err => .error err
        | .ok tail => .ok (if truthy then stock :: tail else tail)

/-- Modelled from the spec: the rendering path that invokes the filter is in
the layout code, which is not under src/.  Per the spec, "An empty filter
expression means 'no filtering': every record passes without evaluation";
only a non-empty expression reaches `Filter.Apply`. -/
def applyFilterIfSet (evaluate : List (Str × GoValue) → Except Str GoValue)
    (trimSpace : Str → Str) (m c : Str → GoValue) (filterText : Str)
    (stocks : List Stock) : Except Str (List Stock) :=
  if filterText = [] then .ok stocks
  else FilterApply evaluate trimSpace m c filterText stocks

/-! ## Profile and ColumnEditor (pkg/view/column_editor.go)

Only the profile fields touched by the embedded code are carried.
`profile.Reorder()` and `profile.Regroup()` live in the config package
(not under src/), so they are parameters of the functions that call them. -/

structure Profile where
  SelectedColumn : Int
  SortColumn : Int
  Ascending : Bool
  Filter : Str
deriving Repr, DecidableEq

/-- `ColumnEditor.selectCurrentColumn` (profile mutation part). -/
def selectCurrentColumn (p : Profile) : Profile :=
  { p with SelectedColumn := p.SortColumn }

/-- `ColumnEditor.selectLeftColumn` (column_editor.go lines 69-75). -/
def selectLeftColumn (totalColumns : Int) (p : Profile) : Profile :=
  let p := { p with SelectedColumn := p.SelectedColumn - 1 }
  if p.SelectedColumn < 0 then { p with SelectedColumn := totalColumns - 1 } else p

/-- `ColumnEditor.selectRightColumn` (column_editor.go lines 78-84). -/
def selectRightColumn (totalColumns : Int) (p : Profile) : Profile :=
  let p := { p with SelectedColumn := p.SelectedColumn + 1 }
  if p.SelectedColumn > totalColumns - 1 then { p with SelectedColumn := 0 } else p

/-- `ColumnEditor.done` (column_editor.go lines 96-99). -/
def doneEditing (p : Profile) : Profile :=
  { p with SelectedColumn := -1 }

/-- Redraw calls observed at the screen boundary. -/
inductive Effect where
  | drawTime        -- screen.Draw(time.Now())
  | drawQuotes      -- screen.Draw(quotes)
  | drawMarket      -- screen.Draw(market)
  | drawMain        -- screen.Draw(market, quotes)
  | drawHelp        -- screen.Draw(help)
  | drawHeader      -- ColumnEditor.redrawHeader: screen.DrawLine + Flush
  | clearScreen     -- screen.Clear()
  | pauseScreen     -- screen.Pause(paused)
  | resizeScreen    -- screen.Resize()
  | prompt          -- lineEditor.Prompt(ch)
deriving Repr, DecidableEq

/-- Keyboard event: `termbox.Event` restricted to `Key` and `Ch`. -/
structure KeyEvent where
  Key : Nat
  Ch : Char
deriving Repr, DecidableEq

def KeyEsc : Nat := 27
def KeyEnter : Nat := 13
def KeyArrowLeft : Nat := 65515
def KeyArrowRight : Nat := 65514

/-- `ColumnEditor.execute` (column_editor.go lines 87-93): `reorder` is the
external `profile.Reorder()`, returning the mutated profile and whether it
succeeded (`== nil`). -/
def executeReorder (reorder : Profile → Profile × Bool) (p : Profile) :
    Profile × List Effect :=
  let r := reorder p
  (r.1, if r.2 then [Effect.drawQuotes] else [])

/-- `ColumnEditor.Handle` (column_editor.go lines 41-59): the mutated
profile, the `done` flag, and the screen effects.  The deferred
`redrawHeader` runs after every dispatch, so `drawHeader` closes every
effect list. -/
def ColumnEditorHandle (totalColumns : Int) (reorder : Profile → Profile × Bool)
    (p : Profile) (event : KeyEvent) : Profile × Bool × List Effect :=
  if event.Key = KeyEsc then
    (doneEditing p, true, [Effect.drawHeader])
  else if event.Key = KeyEnter then
    let r := executeReorder reorder p
    (r.1, false, r.2 ++ [Effect.drawHeader])
  else if event.Key = KeyArrowLeft then
    (selectLeftColumn totalColumns p, false, [Effect.drawHeader])
  else if event.Key = KeyArrowRight then
    (selectRightColumn totalColumns p, false, [Effect.drawHeader])
  else
    (p, false, [Effect.drawHeader])

/-! ## Event dispatcher (cmd/mop/main.go, `mainLoop`)

The line editor is not under src/; its state is an opaque type `LE` and its
`Handle(event) → done` contract the parameter `leHandle`.  The column
editor's struct holds only pointers, so its presence is a `Bool`; its
mutable state (the highlighted column) lives in the shared profile, exactly
as in the Go code. -/

/-- One event picked up by the `select` statement of `mainLoop`. -/
inductive Event where
  | keyEvent (k : KeyEvent)   -- keyboardQueue, termbox.EventKey
  | resizeEvent               -- keyboardQueue, termbox.EventResize
  | tickTimestamp             -- timestampQueue (1 s)
  | tickQuotes                -- quotesQueue (5 s)
  | tickMarket                -- marketQueue (12 s)
deriving Repr, DecidableEq

/-- The mutable state of one `mainLoop` iteration. -/
structure LoopState (LE : Type) where
  lineEditor : Option LE
  columnEditor : Bool
  showingHelp : Bool
  paused : Bool
  profile : Profile

/-- Result of dispatching one event: next state, whether `break loop` ran,
and the screen effects in order. -/
structure StepOut (LE : Type) where
  state : LoopState LE
  quit : Bool
  effects : List Effect

/-- One iteration of `mainLoop`'s `select` (main.go lines 62-128).
`leNew ch` models `view.NewLineEditor(screen, quotes)` (followed by
`Prompt(ch)`); `regroupOk` models `profile.Regroup() == nil`; the `F`
branch models `profile.SetFilter("")` (config code outside src/, which per
the spec clears the filter expression). -/
def step {LE : Type} (leNew : Char → LE) (leHandle : LE → KeyEvent → LE × Bool)
    (totalColumns : Int) (reorder : Profile → Profile × Bool) (regroupOk : Bool)
    (s : LoopState LE) : Event → StepOut LE
  | .keyEvent k =>
    if s.lineEditor.isNone ∧ s.columnEditor = false ∧ s.showingHelp = false then
      if k.Key = KeyEsc ∨ k.Ch = 'q' ∨ k.Ch = 'Q' then
        { state := s, quit := true, effects := [] }
      else if k.Ch = '+' ∨ k.Ch = '-' then
        { state := { s with lineEditor := some (leNew k.Ch) }, quit := false
          effects := [Effect.prompt] }
      else if k.Ch = 'f' then
        { state := { s with lineEditor := some (leNew k.Ch) }, quit := false
          effects := [Effect.prompt] }
      else if k.Ch = 'F' then
        { state := { s with profile := { s.profile with Filter := [] } }
          quit := false, effects := [] }
      else if k.Ch = 'o' ∨ k.Ch = 'O' then
        { state := { s with columnEditor := true
                            profile := selectCurrentColumn s.profile }
          quit := false, effects := [Effect.drawHeader] }
      else if k.Ch = 'g' ∨ k.Ch = 'G' then
        if regroupOk then { state := s, quit := false, effects := [Effect.drawQuotes] }
        else { state := s, quit := false, effects := [] }
      else if k.Ch = 'p' ∨ k.Ch = 'P' then
        { state := { s with paused := !s.paused }, quit := false
          effects := [Effect.pauseScreen, Effect.drawTime] }
      else if k.Ch = '?' ∨ k.Ch = 'h' ∨ k.Ch = 'H' then
        { state := { s with showingHelp := true }, quit := false
          effects := [Effect.clearScreen, Effect.drawHelp] }
      else
        { state := s, quit := false, effects := [] }
    else
      match s.lineEditor with
      | some le =>
        let r := leHandle le k
        { state := { s with lineEditor := if r.2 then none else some r.1 }
          quit := false, effects := [] }
      | none =>
        if s.columnEditor then
          let r := ColumnEditorHandle totalColumns reorder s.profile k
          { state := { s with profile := r.1, columnEditor := !r.2.1 }
            quit := false, effects := r.2.2 }
        else if s.showingHelp then
          { state := { s with showingHelp := false }, quit := false
            effects := [Effect.clearScreen, Effect.drawMain] }
        else
          { state := s, quit := false, effects := [] }
  | .resizeEvent =>
    if !s.showingHelp then
      { state := s, quit := false, effects := [Effect.resizeScreen, Effect.drawMain] }
    else
      { state := s, quit := false, effects := [Effect.resizeScreen, Effect.drawHelp] }
  | .tickTimestamp =>
    if !s.showingHelp && !s.paused then
      { state := s, quit := false, effects := [Effect.drawTime] }
    else
      { state := s, quit := false, effects := [] }
  | .tickQuotes =>
    if !s.showingHelp && !s.paused then
      { state := s, quit := false, effects := [Effect.drawQuotes] }
    else
      { state := s, quit := false, effects := [] }
  | .tickMarket =>
    if !s.showingHelp && !s.paused then
      { state := s, quit := false, effects := [Effect.drawMarket] }
    else
      { state := s, quit := false, effects := [] }

/-! ## Quotes fetching (model package, `Quotes.Fetch` / `parse2`)

`json.Unmarshal` and the HTTP round trip are Go stdlib / network code; their
outcomes are inputs of the model.  A `JsonOutcome.success` carries, for each
element of `quoteResponse.result`, the map after the stringification loop of
`parse2` (that loop formats `float64` values with `float2Str`, i.e. with Go
floating-point formatting, which we take as given rather than remodel). -/

inductive JsonOutcome where
  | failure (err : Str)
  | success (results : List (List (Str × Str)))
deriving Repr, DecidableEq

/-- Go map indexing with the zero value `""` for missing keys. -/
def mapGet (m : List (Str × Str)) (k : Str) : Str := (m.lookup k).getD []

/-- The `Quotes` struct (the `market.IsClosed` flag and `Profile.Tickers`
are inlined; `Stocks == nil` is `none`). -/
structure Quotes where
  Stocks : Option (List Stock)
  errors : Str
  marketIsClosed : Bool
  Tickers : List Str
deriving Repr, DecidableEq

/-- `NewQuotes`. -/
def NewQuotes (marketIsClosed : Bool) (tickers : List Str) : Quotes :=
  { Stocks := none, errors := [], marketIsClosed := marketIsClosed
    Tickers := tickers }

/-- `Quotes.isReady`. -/
def Quotes.isReady (q : Quotes) : Bool :=
  (q.Stocks.isNone || !q.marketIsClosed) && !q.Tickers.isEmpty

/-- The stock built from one stringified result map (parse2's field
assignments).  `parseFloat` is `strconv.ParseFloat(·, 64)`, with the parsed
value as an exact rational; `Advancing` is assigned only when parsing
succeeds, otherwise it keeps its zero value `false`. -/
def buildStock (parseFloat : Str → Option Rat) (result : List (Str × Str)) : Stock :=
  let change := mapGet result "regularMarketChange".toList
  { Stock.zero with
    Ticker     := mapGet result "symbol".toList
    LastTrade  := mapGet result "regularMarketPrice".toList
    Change     := change
    ChangePct  := mapGet result "regularMarketChangePercent".toList
    Open       := mapGet result "regularMarketOpen".toList
    Low        := mapGet result "regularMarketDayLow".toList
    High       := mapGet result "regularMarketDayHigh".toList
    Low52      := mapGet result "fiftyTwoWeekLow".toList
    High52     := mapGet result "fiftyTwoWeekHigh".toList
    Volume     := mapGet result "regularMarketVolume".toList
    AvgVolume  := mapGet result "averageDailyVolume10Day".toList
    PeRatio    := mapGet result "trailingPE".toList
    PeRatioX   := mapGet result "trailingPE".toList
    Dividend   := mapGet result "trailingAnnualDividendRate".toList
    Yield      := mapGet result "trailingAnnualDividendYield".toList
    MarketCap  := mapGet result "marketCap".toList
    MarketCapX := mapGet result "marketCap".toList
    Currency   := mapGet result "currency".toList
    PreOpen    := mapGet result "preMarketChangePercent".toList
    AfterHours := mapGet result "postMarketChangePercent".toList
    Advancing  := match parseFloat change with
                  | some adv => decide ((0 : Rat) ≤ adv)
                  | none => false }

/-- `Quotes.parse2`: on unmarshal failure it returns the error and leaves
the quotes untouched; on success it replaces `Stocks` wholesale.  It never
touches `errors`. -/
def Quotes.parse2 (parseFloat : Str → Option Rat) (q : Quotes)
    (body : JsonOutcome) : Quotes × Except Str Unit :=
  match body with
  | .failure err => (q, .error err)
  | .success results =>
    ({ q with Stocks := some (results.map (buildStock parseFloat)) }, .ok ())

/-- The error message format of the recover branch of `Fetch`. -/
def fetchErrorText (err : Str) : Str :=
  "\n\n\n\nError fetching stock quotes...\n".toList ++ err

/-- `Quotes.Fetch` (part_002 lines 72-99).  `httpOutcome` is the combined
outcome of `http.Get` + `ioutil.ReadAll`: an error makes the Go code panic,
which the deferred func recovers into `quotes.errors`; a body goes to
`parse2`, whose returned error `Fetch` discards, after which the deferred
func (no panic seen) sets `quotes.errors = ""`. -/
def Quotes.Fetch (parseFloat : Str → Option Rat) (q : Quotes)
    (httpOutcome : Except Str JsonOutcome) : Quotes :=
  if q.isReady then
    match httpOutcome with
    | .error err => { q with errors := fetchErrorText err }
    | .ok body =>
      let r := q.parse2 parseFloat body
      { r.1 with errors := [] }
  else q

/-! ## Lemmas for the tokenizer round trip (claim C1) -/

theorem concatAll_append (xs ys : List Str) :
    concatAll (xs ++ ys) = concatAll xs ++ concatAll ys := by
  simp [concatAll]

theorem sliceStr_append_drop (s : Str) (a b : Nat) (h : a ≤ b) :
    sliceStr s a b ++ s.drop b = s.drop a := by
  have hb : (s.drop a).drop (b - a) = s.drop b := by
    rw [List.drop_drop]
    congr 1
    omega
  conv_lhs => rw [← hb]
  rw [sliceStr, List.take_append_drop]

theorem tagMatchAt_bounds : ∀ (patterns : List Str) {s : Str} {pos len : Nat},
    tagMatchAt patterns s pos = some len → 0 < len ∧ pos + len ≤ s.length := by
  intro patterns
  induction patterns with
  | nil => intro s pos len h; simp [tagMatchAt] at h
  | cons p ps ih =>
    intro s pos len h
    rw [tagMatchAt] at h
    split at h
    · rename_i hc
      obtain ⟨htake, hne⟩ := hc
      have hlen : p.length = len := by injection h
      have hl := congrArg List.length htake
      rw [List.length_take, List.length_drop] at hl
      have hp : 0 < p.length := List.length_pos.mpr hne
      omega
    · exact ih h

theorem validMatches_mono {n : Nat} {lo lo' : Nat} {ms : List (Nat × Nat)}
    (h : ValidMatches n lo' ms) (hle : lo ≤ lo') : ValidMatches n lo ms := by
  cases ms with
  | nil => trivial
  | cons m rest =>
    obtain ⟨h1, h2⟩ := h
    exact ⟨le_trans hle h1, h2⟩

theorem scanMatches_valid (patterns : List Str) (s : Str) :
    ∀ (fuel pos : Nat), ValidMatches s.length pos (scanMatches patterns s pos fuel) := by
  intro fuel
  induction fuel with
  | zero => intro pos; rw [scanMatches]; trivial
  | succ fuel ih =>
    intro pos
    rw [scanMatches]
    cases hm : tagMatchAt patterns s pos with
    | none =>
      by_cases hp : pos < s.length
      · rw [if_pos hp]
        exact validMatches_mono (ih (pos + 1)) (by omega)
      · rw [if_neg hp]
        trivial
    | some len =>
      obtain ⟨hpos, hle⟩ := tagMatchAt_bounds patterns hm
      exact ⟨le_refl _, by omega, hle, ih (pos + len)⟩

theorem tokenizeLoop_concat (s : Str) :
    ∀ (ms : List (Nat × Nat)) (head tail : Nat),
      ValidMatches s.length head ms → head ≤ s.length →
      (tail = s.length → head = s.length) →
      concatAll (tokenizeLoop s head tail ms) = s.drop head := by
  intro ms
  induction ms with
  | nil =>
    intro head tail hv hh ht
    rw [tokenizeLoop]
    by_cases h1 : head = s.length
    · subst h1
      rw [if_neg (by simp)]
      simp [concatAll]
    · have h2 : tail ≠ s.length := fun he => h1 (ht he)
      rw [if_pos ⟨h1, h2⟩]
      show concatAll [sliceStr s head s.length] = s.drop head
      simp only [concatAll, List.flatten_cons, List.flatten_nil, List.append_nil]
      rw [sliceStr]
      apply List.take_of_length_le
      rw [List.length_drop]
  | cons m rest ih =>
    intro head tail hv hh ht
    obtain ⟨a, b⟩ := m
    obtain ⟨h1, h2, h3, hv'⟩ := hv
    rw [tokenizeLoop]
    have hb0 : b ≠ 0 := by omega
    rw [if_pos hb0]
    have ihr : concatAll (tokenizeLoop s b a rest) = s.drop b := by
      apply ih b a hv' h3
      intro he
      omega
    by_cases hz : head ≠ 0 ∨ a ≠ 0
    · rw [if_pos hz, concatAll_append, concatAll_append, ihr]
      show (concatAll [sliceStr s head a] ++ concatAll [sliceStr s a b]) ++ s.drop b
          = s.drop head
      simp only [concatAll, List.flatten_cons, List.flatten_nil, List.append_nil]
      rw [List.append_assoc, sliceStr_append_drop s a b (by omega),
        sliceStr_append_drop s head a h1]
    · rw [if_neg hz, concatAll_append, concatAll_append, ihr]
      push_neg at hz
      obtain ⟨hz1, hz2⟩ := hz
      subst hz1
      subst hz2
      show (concatAll ([] : List Str) ++ concatAll [sliceStr s 0 b]) ++ s.drop b
          = s.drop 0
      simp only [concatAll, List.flatten_cons, List.flatten_nil, List.append_nil,
        List.nil_append]
      rw [sliceStr_append_drop s 0 b (by omega), List.drop_zero]

/-- Claim C1: for every input string (and every configured markup theme),
concatenating in order all tokens returned by `Markup.Tokenize`
reconstructs the input string exactly — no character between tag
boundaries is dropped or duplicated, and the order is preserved. -/
theorem tokenize_round_trip (hc mc : Str) (s : Str) :
    concatAll ((NewMarkup hc mc).Tokenize s) = s := by
  have h := tokenizeLoop_concat s
    (findAllTagIndex (supportedTagForms (NewMarkup hc mc).tags) s) 0 0
    (scanMatches_valid _ s _ 0) (Nat.zero_le _) (fun he => he)
  simpa [Markup.Tokenize, tokenizeCore, findAllTagIndex] using h

/-! ## Lemmas about `Markup.process` (claims C2, C8, C10) -/

theorem process_open_attr {markup : Markup} {tag : Str} {attr : Nat}
    (hl : markup.tags.lookup tag = some attr) (hr : tag ≠ "right".toList)
    (ha : AttrBold ≤ attr) :
    markup.process tag true = { markup with Foreground := markup.Foreground ||| attr } := by
  simp only [Markup.process, hl]
  rw [if_neg hr, if_pos trivial, if_pos ha]

theorem process_close_attr {markup : Markup} {tag : Str} {attr : Nat}
    (hl : markup.tags.lookup tag = some attr) (hr : tag ≠ "right".toList)
    (ha : AttrBold ≤ attr) :
    markup.process tag false = { markup with Foreground := markup.Foreground &&& compl16 attr } := by
  simp only [Markup.process, hl]
  rw [if_neg hr, if_neg Bool.false_ne_true, if_pos ha]

theorem process_close_color {markup : Markup} {tag : Str} {attr : Nat}
    (hl : markup.tags.lookup tag = some attr) (hr : tag ≠ "right".toList)
    (ha : attr < AttrBold) :
    markup.process tag false = { markup with Foreground := ColorDefault } := by
  simp only [Markup.process, hl]
  rw [if_neg hr, if_neg Bool.false_ne_true, if_neg (Nat.not_le.mpr ha)]

/-- Claim C8: for every starting render state — any foreground word
(16-bit), any background, any alignment, any configured theme colors —
processing `<b>`, then `<u>`, then `</b>` leaves the underline bit (10)
set and the bold bit (9) cleared, with every other bit of the foreground
word (the color portion and the remaining attribute bits) unchanged, and
the rest of the state untouched. -/
theorem attribute_layering (hc mc : Str) (f bg : Nat) (ra : Bool)
    (hf : f < 65536) :
    ∀ m3 : Markup,
      m3 = ((({ Foreground := f, Background := bg, RightAligned := ra,
                tags := markupTags hc mc } : Markup).process "b".toList true).process
                "u".toList true).process "b".toList false →
      m3.Foreground.testBit 10 = true
      ∧ m3.Foreground.testBit 9 = false
      ∧ (∀ i, i ≠ 9 → i ≠ 10 → m3.Foreground.testBit i = f.testBit i)
      ∧ m3.RightAligned = ra ∧ m3.Background = bg := by
  intro m3 hm3
  subst hm3
  refine ⟨?_, ?_, ?_, rfl, rfl⟩
  · show (((f ||| 512) ||| 1024) &&& (65535 ^^^ 512)).testBit 10 = true
    rw [Nat.testBit_and, (by decide : ((65535 : Nat) ^^^ 512).testBit 10 = true),
      Nat.testBit_or, (by decide : (1024 : Nat).testBit 10 = true)]
    simp
  · show (((f ||| 512) ||| 1024) &&& (65535 ^^^ 512)).testBit 9 = false
    rw [Nat.testBit_and, (by decide : ((65535 : Nat) ^^^ 512).testBit 9 = false)]
    simp
  · intro i h9 h10
    show (((f ||| 512) ||| 1024) &&& (65535 ^^^ 512)).testBit i = f.testBit i
    have h512 : (512 : Nat) = 2 ^ 9 := by norm_num
    have h1024 : (1024 : Nat) = 2 ^ 10 := by norm_num
    have h65535 : (65535 : Nat) = 2 ^ 16 - 1 := by norm_num
    rw [Nat.testBit_and, Nat.testBit_or, Nat.testBit_or, Nat.testBit_xor,
      h512, h1024, h65535, Nat.testBit_two_pow, Nat.testBit_two_pow,
      Nat.testBit_two_pow_sub_one]
    have d9 : ((9 : Nat) = i) = False := eq_false (fun h => h9 h.symm)
    have d10 : ((10 : Nat) = i) = False := eq_false (fun h => h10 h.symm)
    simp only [d9, d10, decide_False, Bool.or_false, Bool.xor_false]
    by_cases hi : i < 16
    · simp [hi]
    · have hfz : f.testBit i = false := by
        apply Nat.testBit_lt_two_pow
        calc f < 65536 := hf
        _ = 2 ^ 16 := by norm_num
        _ ≤ 2 ^ i := Nat.pow_le_pow_right (by norm_num) (by omega)
      simp [hfz, hi]

/-- Witness for `attribute_layering` at a concrete state: foreground 7
(cyan), after `<b><u></b>` the underline bit is set. -/
theorem attribute_layering_witness :
    (7 : Nat) < 65536 ∧
    (((({ Foreground := 7, Background := 0, RightAligned := false,
          tags := markupTags "green".toList "yellow".toList } : Markup).process
          "b".toList true).process "u".toList true).process
          "b".toList false).Foreground.testBit 10 = true :=
  ⟨by decide,
    (attribute_layering "green".toList "yellow".toList 7 0 false (by decide)
      _ rfl).1⟩

theorem lookup_getD_lt_of_forall (name : Str) :
    ∀ l : List (Str × Nat), (∀ p ∈ l, p.2 < AttrBold) →
      ((l.lookup name).getD ColorDefault) < AttrBold := by
  intro l
  induction l with
  | nil =>
    intro _
    simp only [List.lookup, Option.getD_none]
    decide
  | cons p t ih =>
    intro hb
    obtain ⟨k, v⟩ := p
    cases h : (name == k) with
    | true =>
      simp only [List.lookup, h, Option.getD_some]
      exact hb (k, v) (by simp)
    | false =>
      simp only [List.lookup, h]
      exact ih (fun q hq => hb q (by simp [hq]))

theorem terminalColorGet_lt (name : Str) : terminalColorGet name < AttrBold := by
  rw [terminalColorGet]
  apply lookup_getD_lt_of_forall
  decide

/-- Claim C10: with the tag vocabulary of `NewMarkup`, processing the
closing form of any known color tag (`base`, `highlight`, `market`) or the
universal close `/` assigns the entire foreground word the default color,
for every starting foreground (any color, any combination of attribute
bits) and every configured theme: attributes do not survive a color
close. -/
theorem color_close_resets (hc mc : Str) (f bg : Nat) (ra : Bool) (tag : Str)
    (htag : tag = "/".toList ∨ tag = "base".toList ∨ tag = "highlight".toList
            ∨ tag = "market".toList) :
    (({ Foreground := f, Background := bg, RightAligned := ra,
        tags := markupTags hc mc } : Markup).process tag false).Foreground
      = ColorDefault := by
  rcases htag with h | h | h | h <;> subst h
  · rw [process_close_color
      (show (markupTags hc mc).lookup "/".toList = some ColorDefault from rfl)
      (by decide) (by decide)]
  · rw [process_close_color
      (show (markupTags hc mc).lookup "base".toList = some ColorWhite from rfl)
      (by decide) (by decide)]
  · rw [process_close_color
      (show (markupTags hc mc).lookup "highlight".toList
          = some (terminalColorGet hc) from rfl)
      (by decide) (terminalColorGet_lt hc)]
  · rw [process_close_color
      (show (markupTags hc mc).lookup "market".toList
          = some (terminalColorGet mc) from rfl)
      (by decide) (terminalColorGet_lt mc)]

/-- Witness for `color_close_resets`: a foreground carrying the reverse
bit and a color is wholly reset by `</base>`. -/
theorem color_close_resets_witness :
    (({ Foreground := 2053, Background := 0, RightAligned := true,
        tags := markupTags "red".toList "blue".toList } : Markup).process
        "base".toList false).Foreground = ColorDefault :=
  color_close_resets "red".toList "blue".toList 2053 0 true "base".toList
    (Or.inr (Or.inl rfl))

/-- Claim C2, settled against the code at its own documented example:
`NewMarkup` registers only the tags `/`, `base`, `highlight`, `market`,
`right`, `b`, `u`, `r` — no color names — so "<green>OK</>" tokenizes into
the TWO tokens ["<green>OK", "</>"] rather than the three the spec (and
the `Tokenize` doc comment) promise; `IsTag` on "<green>" returns true but
performs no state change (the foreground is never set to green), while
`IsTag` on "</>" does reset the foreground to the default.  The theme
colors are fixed to concrete values; they do not enter the tag keys. -/
theorem tokenize_green_example :
    ((NewMarkup "lightgray".toList "yellow".toList).Tokenize
        "<green>OK</>".toList
      = ["<green>OK".toList, "</>".toList])
    ∧ ((NewMarkup "lightgray".toList "yellow".toList).IsTag "<green>".toList
      = (NewMarkup "lightgray".toList "yellow".toList, true))
    ∧ ((({ NewMarkup "lightgray".toList "yellow".toList with
          Foreground := ColorGreen } : Markup).IsTag "</>".toList).1.Foreground
      = ColorDefault) := by
  refine ⟨?_, ?_, ?_⟩ <;> rfl

/-- Claim C3: if the expression engine errors on some record of the input
collection, or returns a non-boolean value for it, `Filter.Apply` hits the
panic path: the whole call aborts with an error and no filtered collection
is produced — no records pass. -/
theorem filter_apply_fatal (evaluate : List (Str × GoValue) → Except Str GoValue)
    (trimSpace : Str → Str) (m c : Str → GoValue) (filterText : Str)
    (stocks : List Stock) (stock : Stock) (hmem : stock ∈ stocks)
    (hbad : (∃ e, evaluate (stockValues trimSpace m c stock) = .error e)
          ∨ (∃ v, evaluate (stockValues trimSpace m c stock) = .ok v
                  ∧ v.asBool = none)) :
    ∃ e, FilterApply evaluate trimSpace m c filterText stocks = .error e := by
  induction stocks with
  | nil => cases hmem
  | cons hd tl ih =>
    cases hev : evaluate (stockValues trimSpace m c hd) with
    | error e =>
      refine ⟨e, ?_⟩
      simp only [FilterApply, hev]
    | ok v =>
      cases hv : v.asBool with
      | none =>
        refine ⟨nonBooleanPanicMsg filterText, ?_⟩
        simp only [FilterApply, hev, hv]
      | some b =>
        have hmem2 : stock ∈ tl := by
          rcases List.mem_cons.mp hmem with heq | h
          · exfalso
            subst heq
            rcases hbad with ⟨e, he⟩ | ⟨w, hw, hwb⟩
            · rw [hev] at he
              exact Except.noConfusion he
            · rw [hev] at hw
              have hvw : v = w := by injection hw
              rw [← hvw, hv] at hwb
              exact Option.noConfusion hwb
          · exact h
        obtain ⟨e, he⟩ := ih hmem2
        refine ⟨e, ?_⟩
        simp only [FilterApply, hev, hv, he]

/-- Witness for `filter_apply_fatal`: a one-record collection whose
evaluation errors produces no result set. -/
theorem filter_apply_fatal_witness :
    ∃ e, FilterApply (fun _ => Except.error "boom".toList) id GoValue.strval
      GoValue.strval [] [Stock.zero] = Except.error e :=
  filter_apply_fatal (fun _ => Except.error "boom".toList) id GoValue.strval
    GoValue.strval [] [Stock.zero] Stock.zero (by simp)
    (Or.inl ⟨"boom".toList, rfl⟩)

/-- Claim C4 (the empty-expression bypass is spec-modelled: it lives in the
rendering caller, outside src/): with an empty filter expression the
filtering path returns every record, in the original order, for every
collection — and for every expression engine, i.e. no evaluation can
influence the result. -/
theorem empty_filter_passes_all
    (evaluate : List (Str × GoValue) → Except Str GoValue)
    (trimSpace : Str → Str) (m c : Str → GoValue) (stocks : List Stock) :
    applyFilterIfSet evaluate trimSpace m c [] stocks = .ok stocks := rfl

/-- Claim C7: for every total column count n ≥ 1 and every profile,
selecting left from highlighted column 0 wraps to n − 1, selecting right
from n − 1 wraps to 0, and neither navigation function ever changes the
active sort column. -/
theorem column_navigation_wraparound (n : Int) (_hn : 1 ≤ n) (p : Profile) :
    (p.SelectedColumn = 0 → (selectLeftColumn n p).SelectedColumn = n - 1)
    ∧ (p.SelectedColumn = n - 1 → (selectRightColumn n p).SelectedColumn = 0)
    ∧ (selectLeftColumn n p).SortColumn = p.SortColumn
    ∧ (selectRightColumn n p).SortColumn = p.SortColumn := by
  refine ⟨?_, ?_, ?_, ?_⟩
  · intro h0
    simp only [selectLeftColumn, h0]
    norm_num
  · intro h1
    simp only [selectRightColumn, h1]
    rw [if_pos (by omega)]
  · simp only [selectLeftColumn]
    split <;> rfl
  · simp only [selectRightColumn]
    split <;> rfl

/-- Witness for `column_navigation_wraparound` with the real column count
(9 columns): left from 0 lands on 8, right from 8 lands on 0. -/
theorem column_navigation_witness :
    (selectLeftColumn 9
      { SelectedColumn := 0, SortColumn := 3, Ascending := true,
        Filter := [] }).SelectedColumn = 8
    ∧ (selectRightColumn 9
      { SelectedColumn := 8, SortColumn := 3, Ascending := true,
        Filter := [] }).SelectedColumn = 0 :=
  ⟨(column_navigation_wraparound 9 (by norm_num)
      { SelectedColumn := 0, SortColumn := 3, Ascending := true,
        Filter := [] }).1 rfl,
   (column_navigation_wraparound 9 (by norm_num)
      { SelectedColumn := 8, SortColumn := 3, Ascending := true,
        Filter := [] }).2.1 (by norm_num)⟩

/-- Claim C5: while a modal editor (line editor or column editor) is
active, every keyboard event — including the otherwise-global quit keys
Esc, q, Q — routes exclusively to that editor: the loop never quits, the
global pause/help flags are untouched, and the next state is exactly the
editor dispatch prescribed by the editor's `Handle` contract (which also
shows that control returns to normal exactly when `Handle` reports
done). -/
theorem modal_focus_exclusive {LE : Type} (leNew : Char → LE)
    (leHandle : LE → KeyEvent → LE × Bool) (totalColumns : Int)
    (reorder : Profile → Profile × Bool) (regroupOk : Bool)
    (s : LoopState LE) (k : KeyEvent)
    (hmodal : s.lineEditor.isSome ∨ s.columnEditor = true) :
    (step leNew leHandle totalColumns reorder regroupOk s (.keyEvent k)).quit
        = false
    ∧ (step leNew leHandle totalColumns reorder regroupOk s
        (.keyEvent k)).state.paused = s.paused
    ∧ (step leNew leHandle totalColumns reorder regroupOk s
        (.keyEvent k)).state.showingHelp = s.showingHelp
    ∧ (∀ le, s.lineEditor = some le →
        (step leNew leHandle totalColumns reorder regroupOk s
          (.keyEvent k)).state.lineEditor
        = (if (leHandle le k).2 then none else some (leHandle le k).1))
    ∧ (s.lineEditor = none → s.columnEditor = true →
        (step leNew leHandle totalColumns reorder regroupOk s
            (.keyEvent k)).state.profile
          = (ColumnEditorHandle totalColumns reorder s.profile k).1
        ∧ (step leNew leHandle totalColumns reorder regroupOk s
            (.keyEvent k)).state.columnEditor
          = !(ColumnEditorHandle totalColumns reorder s.profile k).2.1) := by
  cases hle : s.lineEditor with
  | some le =>
    refine ⟨?_, ?_, ?_, ?_, ?_⟩
    · simp [step, hle]
    · simp [step, hle]
    · simp [step, hle]
    · intro le2 hle2
      have : le = le2 := by injection hle2
      subst this
      simp [step, hle]
    · intro hnone
      exact Option.noConfusion hnone
  | none =>
    have hco : s.columnEditor = true := by
      rcases hmodal with h | h
      · rw [hle] at h
        exact absurd h (by simp)
      · exact h
    refine ⟨?_, ?_, ?_, ?_, ?_⟩
    · simp [step, hle, hco]
    · simp [step, hle, hco]
    · simp [step, hle, hco]
    · intro le2 hle2
      exact Option.noConfusion hle2
    · intro _ _
      constructor
      · simp [step, hle, hco]
      · simp [step, hle, hco]

/-- Witness for `modal_focus_exclusive`: with a line editor active, the
quit key q does not terminate the loop. -/
theorem modal_focus_exclusive_witness :
    (step (fun _ => ()) (fun _ _ => ((), false)) 9 (fun p => (p, true)) true
      { lineEditor := some (), columnEditor := false, showingHelp := false,
        paused := false,
        profile := { SelectedColumn := -1, SortColumn := 0, Ascending := true,
                     Filter := [] } }
      (.keyEvent { Key := 0, Ch := 'q' })).quit = false :=
  (modal_focus_exclusive (fun _ => ()) (fun _ _ => ((), false)) 9
    (fun p => (p, true)) true
    { lineEditor := some (), columnEditor := false, showingHelp := false,
      paused := false,
      profile := { SelectedColumn := -1, SortColumn := 0, Ascending := true,
                   Filter := [] } }
    { Key := 0, Ch := 'q' } (Or.inl rfl)).1

/-- Claim C6: whenever the pause flag is set or help is showing, each of
the three timer ticks (1-second clock, 5-second quotes, 12-second market)
produces no redraw call at all; when pause is cleared and help is not
showing, the next tick of each timer redraws its screen area. -/
theorem tick_suppression {LE : Type} (leNew : Char → LE)
    (leHandle : LE → KeyEvent → LE × Bool) (totalColumns : Int)
    (reorder : Profile → Profile × Bool) (regroupOk : Bool)
    (s : LoopState LE) :
    ((s.paused = true ∨ s.showingHelp = true) →
      (step leNew leHandle totalColumns reorder regroupOk s
        .tickTimestamp).effects = []
      ∧ (step leNew leHandle totalColumns reorder regroupOk s
        .tickQuotes).effects = []
      ∧ (step leNew leHandle totalColumns reorder regroupOk s
        .tickMarket).effects = [])
    ∧ (s.paused = false → s.showingHelp = false →
      (step leNew leHandle totalColumns reorder regroupOk s
        .tickTimestamp).effects = [Effect.drawTime]
      ∧ (step leNew leHandle totalColumns reorder regroupOk s
        .tickQuotes).effects = [Effect.drawQuotes]
      ∧ (step leNew leHandle totalColumns reorder regroupOk s
        .tickMarket).effects = [Effect.drawMarket]) := by
  constructor
  · intro h
    rcases h with h | h <;> exact ⟨by simp [step, h], by simp [step, h],
      by simp [step, h]⟩
  · intro hp hh
    exact ⟨by simp [step, hp, hh], by simp [step, hp, hh],
      by simp [step, hp, hh]⟩

/-- Witness for `tick_suppression`: with pause set the quotes tick draws
nothing; with pause cleared it redraws the quotes. -/
theorem tick_suppression_witness :
    (step (fun _ => ()) (fun _ _ => ((), false)) 9 (fun p => (p, true)) true
      { lineEditor := none, columnEditor := false, showingHelp := false,
        paused := true,
        profile := { SelectedColumn := -1, SortColumn := 0, Ascending := true,
                     Filter := [] } }
      .tickQuotes).effects = []
    ∧ (step (fun _ => ()) (fun _ _ => ((), false)) 9 (fun p => (p, true)) true
      { lineEditor := none, columnEditor := false, showingHelp := false,
        paused := false,
        profile := { SelectedColumn := -1, SortColumn := 0, Ascending := true,
                     Filter := [] } }
      .tickQuotes).effects = [Effect.drawQuotes] :=
  ⟨((tick_suppression (fun _ => ()) (fun _ _ => ((), false)) 9
      (fun p => (p, true)) true
      { lineEditor := none, columnEditor := false, showingHelp := false,
        paused := true,
        profile := { SelectedColumn := -1, SortColumn := 0, Ascending := true,
                     Filter := [] } }).1 (Or.inl rfl)).2.1,
   ((tick_suppression (fun _ => ()) (fun _ _ => ((), false)) 9
      (fun p => (p, true)) true
      { lineEditor := none, columnEditor := false, showingHelp := false,
        paused := false,
        profile := { SelectedColumn := -1, SortColumn := 0, Ascending := true,
                     Filter := [] } }).2 rfl rfl).2.1⟩

/-- Claim C9, evaluated against the code at the divergence point: when the
HTTP round trip succeeds but the body fails to unmarshal, `Fetch` discards
the error `parse2` returns, and the deferred recover — seeing no panic —
sets `quotes.errors` to the empty string: this fetch failure is NOT
recorded as a session-visible error (a previously recorded error is even
wiped), although the prior collection is retained.  On the panic path the
claim does hold: an HTTP error is recorded in `errors` while the prior
collection is retained (third and fourth conjuncts). -/
theorem fetch_parse_error_not_recorded :
    (Quotes.Fetch (fun _ => none)
        { Stocks := some [Stock.zero], errors := "old error".toList,
          marketIsClosed := false, Tickers := ["GOOG".toList] }
        (.ok (.failure "invalid json".toList))).errors = []
    ∧ (Quotes.Fetch (fun _ => none)
        { Stocks := some [Stock.zero], errors := "old error".toList,
          marketIsClosed := false, Tickers := ["GOOG".toList] }
        (.ok (.failure "invalid json".toList))).Stocks = some [Stock.zero]
    ∧ (Quotes.Fetch (fun _ => none)
        { Stocks := some [Stock.zero], errors := [], marketIsClosed := false,
          Tickers := ["GOOG".toList] }
        (.error "connection refused".toList)).errors
      = fetchErrorText "connection refused".toList
    ∧ (Quotes.Fetch (fun _ => none)
        { Stocks := some [Stock.zero], errors := [], marketIsClosed := false,
          Tickers := ["GOOG".toList] }
        (.error "connection refused".toList)).Stocks = some [Stock.zero] := by
  refine ⟨?_, ?_, ?_, ?_⟩ <;> rfl

end Mop
